import Mathlib

/-!
Shallow embedding of the CodeChecker plist report pipeline:
`libcodechecker/analyze/plist_parser.py` and
`libcodechecker/generic_package_suppress_handler.py`.

External collaborators are parameters of the embedded functions:
the content-hash function `generate_report_hash` (a `HashFn`), the
source-line reader `util.get_line`, the inline suppression detector
`SourceSuppressHandler.get_suppressed` and the skip predicate of the
skip handler.  Python exceptions are modelled with `Option`/`Except`;
the plist reader `plistlib.readPlist` is modelled by the `PlistInput`
sum whose failure constructors stand for the exceptions the source
catches (`ExpatError`, `KeyError` on the top-level keys, ...).
-/

namespace CodeChecker

/-- Location dictionary of a plist node: `{file, line, col}`.  The file
field is an index into the file table. -/
structure Loc where
  file : Nat
  line : Nat
  col : Nat
deriving DecidableEq, Repr

/-- Edge of a control path element: `{start: [loc...], end: [loc...]}`.
The `stop` field models the `end` key (a Lean keyword). -/
structure Edge where
  start : List Loc
  stop : List Loc
deriving DecidableEq, Repr

/-- One element of a diagnostic's `path` array.  Optional fields model
dictionary keys that may be absent (Python `KeyError` on access). -/
structure PathElem where
  kind : Option String
  location : Option Loc
  message : Option String
  ranges : Option (List (List Loc))
  edges : Option (List Edge)
deriving DecidableEq, Repr

/-- One entry of the `diagnostics` array.  `check_name` and `issue_hash`
(the `issue_hash_content_of_line_in_context` key) are optional:
`none` models the key being absent from the dictionary; `some ""` models
the key being present with an empty value. -/
structure Diag where
  check_name : Option String
  issue_hash : Option String
  location : Loc
  path : List PathElem
deriving DecidableEq, Repr

/-- A successfully `readPlist`-ed plist with its two top-level keys. -/
structure ParsedPlist where
  files : List String
  diagnostics : List Diag
deriving DecidableEq, Repr

/-- Outcome of `plistlib.readPlist(path)` plus the top-level key reads:
`malformed` models `readPlist` raising (`ExpatError`, ...) or the
`files` key being missing; `noDiagnosticsKey` models the `diagnostics`
key being missing after `files` was already read. -/
inductive PlistInput where
  | malformed
  | noDiagnosticsKey (files : List String)
  | ok (p : ParsedPlist)
deriving DecidableEq, Repr

/-- The `Report` object built by the parser (class `Report` lives in
`libcodechecker/report.py`, outside src/).  Modelled from the spec:
a `DiagnosticRecord` carries the resolved checker name and identity
hash of its main section, the ordered path steps and the file table
(spec section 3). -/
structure Report where
  main_check_name : String
  main_hash : String
  bug_path : List PathElem
  files : List String
deriving DecidableEq, Repr

/-- Type of the external deterministic content-hash collaborator
`generate_report_hash(path, source_file, checker_name)`. -/
abbrev HashFn := List PathElem → String → String → String

/-- Characters after the last slash: `cur` holds the component read so
far and is reset at every slash. -/
def basenameAux (cur : List Char) : List Char → List Char
  | [] => cur
  | c :: cs => if c = '/' then basenameAux [] cs else basenameAux (cur ++ [c]) cs

/-- Python `os.path.basename`: the part after the last slash. -/
def basename (p : String) : String :=
  String.mk (basenameAux [] p.toList)

/-- Python `s.lstrip('/')`: drop every leading slash. -/
def lstripSlash (s : String) : String :=
  s.dropWhile (fun c => c = '/')

/-- Python `os.path.join(a, b)` for the cases reachable from the
parser (`b` has been stripped of leading slashes). -/
def pyJoin (a b : String) : String :=
  if b.startsWith "/" then b
  else if a = "" then b
  else if a.endsWith "/" then a ++ b
  else a ++ "/" ++ b

/-- `get_checker_name(diagnostic, path="")`: the `check_name` value if
it is truthy, else the sentinel `"unknown"` (a missing key and an empty
string are both falsy in Python). -/
def get_checker_name (d : Diag) : String :=
  match d.check_name with
  | none => "unknown"
  | some s => if s = "" then "unknown" else s

/-- `get_report_hash(diagnostic, source_file)`: the stored
`issue_hash_content_of_line_in_context` value if truthy, otherwise the
hash generated by `generate_report_hash(diag['path'], source_file,
get_checker_name(diag))`. -/
def get_report_hash (hf : HashFn) (d : Diag) (source_file : String) : String :=
  match d.issue_hash with
  | none => hf d.path source_file (get_checker_name d)
  | some h => if h = "" then hf d.path source_file (get_checker_name d) else h

/-- Resolution of `files[diag['location']['file']]` joined with the
optional `source_root` (the `""` default is unreachable whenever the
index is in range). -/
def resolveSourcePath (files : List String) (sr : Option String) (d : Diag) : String :=
  match files.get? d.location.file with
  | none => ""
  | some fp =>
    match sr with
    | none => fp
    | some root => pyJoin root (lstripSlash fp)

/-- One iteration of the `for diag in plist['diagnostics']` loop in
`parse_plist`.  `none` models the `IndexError` raised by
`files[diag['location']['file']]` when the index is out of range;
otherwise the result is the built `Report`, the (possibly hash-enriched)
diagnostic written back into the in-memory plist, and whether the
diagnostic was changed (hash key absent, so the hash was filled in). -/
def processOne (hf : HashFn) (files : List String) (sr : Option String) (d : Diag) :
    Option (Report × Diag × Bool) :=
  match files.get? d.location.file with
  | none => none
  | some _ =>
    let file_path := resolveSourcePath files sr d
    let checker := get_checker_name d
    let report_hash := get_report_hash hf d file_path
    let changed := d.issue_hash.isNone
    let d' := if changed then { d with issue_hash := some report_hash } else d
    some ({ main_check_name := checker, main_hash := report_hash,
            bug_path := d.path, files := files }, d', changed)

/-- The report a successful loop iteration appends (the value of
`processOne` with the file index in range). -/
def repOne (hf : HashFn) (files : List String) (sr : Option String) (d : Diag) : Report :=
  { main_check_name := get_checker_name d,
    main_hash := get_report_hash hf d (resolveSourcePath files sr d),
    bug_path := d.path, files := files }

/-- The in-memory diagnostic after a successful loop iteration: the
hash is written back exactly when the key was absent. -/
def updOne (hf : HashFn) (files : List String) (sr : Option String) (d : Diag) : Diag :=
  if d.issue_hash.isNone then
    { d with issue_hash := some (get_report_hash hf d (resolveSourcePath files sr d)) }
  else d

/-- Accumulated state of the parse loop: the reports built so far, the
updated in-memory diagnostics, the `diag_changed` flag, and whether an
exception aborted the loop. -/
structure LoopOut where
  reports : List Report
  diags : List Diag
  changed : Bool
  errored : Bool
deriving DecidableEq, Repr

/-- The diagnostics loop of `parse_plist`.  A failing diagnostic aborts
the loop (the exception is caught outside it), discarding that
diagnostic and every later one, but the reports accumulated before the
failure are kept. -/
def runDiags (hf : HashFn) (files : List String) (sr : Option String) :
    List Diag → LoopOut
  | [] => ⟨[], [], false, false⟩
  | d :: ds =>
    match processOne hf files sr d with
    | none => ⟨[], [], false, true⟩
    | some (r, d', ch) =>
      let rest := runDiags hf files sr ds
      ⟨r :: rest.reports, d' :: rest.diags, ch || rest.changed, rest.errored⟩

/-- Full outcome of `parse_plist`: its return value plus the plist
written back by `plistlib.writePlist` (if any). -/
structure ParseOutput where
  files : List String
  reports : List Report
  rewritten : Option ParsedPlist
deriving DecidableEq, Repr

/-- `parse_plist(path, source_root, allow_plist_update)` including the
rewrite side effect.  Every exception is caught and the
`finally: return files, reports` block yields whatever was accumulated;
the write-back only happens when the loop finished without an
exception, some diagnostic was changed, and updating is allowed. -/
def parse_plist_full (hf : HashFn) (input : PlistInput) (sr : Option String)
    (allow_plist_update : Bool) : ParseOutput :=
  match input with
  | .malformed => ⟨[], [], none⟩
  | .noDiagnosticsKey fs => ⟨fs, [], none⟩
  | .ok p =>
    let o := runDiags hf p.files sr p.diagnostics
    ⟨p.files, o.reports,
      if !o.errored && o.changed && allow_plist_update
        then some ⟨p.files, o.diags⟩ else none⟩

/-- The value `parse_plist` returns to its caller: always the pair
`(files, reports)`. -/
def parse_plist (hf : HashFn) (input : PlistInput) (sr : Option String)
    (allow_plist_update : Bool) : List String × List Report :=
  ((parse_plist_full hf input sr allow_plist_update).files,
   (parse_plist_full hf input sr allow_plist_update).reports)

/-- File table already read at the point the parser finishes or fails. -/
def inputFiles : PlistInput → List String
  | .malformed => []
  | .noDiagnosticsKey fs => fs
  | .ok p => p.files

/-- Diagnostics array the parse loop iterates over. -/
def inputDiags : PlistInput → List Diag
  | .malformed => []
  | .noDiagnosticsKey _ => []
  | .ok p => p.diagnostics

/-- `fids_in_range(rng)`: every `file` id of every location of every
range. -/
def fids_in_range (rng : List (List Loc)) : List Nat :=
  rng.flatMap (fun r => r.map (fun l => l.file))

/-- `fids_in_edge(edges)`: the `file` ids of the start then end
locations of every edge. -/
def fids_in_edge (edges : List Edge) : List Nat :=
  edges.flatMap (fun e => e.start.map (fun l => l.file) ++ e.stop.map (fun l => l.file))

/-- File ids referenced by one path element: ranges, then the optional
location, then edges; an absent key contributes nothing (the
`except KeyError: pass` blocks). -/
def pathElemFids (pe : PathElem) : List Nat :=
  (match pe.ranges with | some r => fids_in_range r | none => []) ++
  (match pe.location with | some l => [l.file] | none => []) ++
  (match pe.edges with | some e => fids_in_edge e | none => [])

/-- The diagnostics loop of `fids_in_path`: a diagnostic whose
location file id is in `file_ids_to_remove` is skipped, the rest are
kept in order and their path file ids collected. -/
def fids_in_path_diags (ids : List Nat) : List Diag → List Nat × List Diag
  | [] => ([], [])
  | d :: ds =>
    if d.location.file ∈ ids then fids_in_path_diags ids ds
    else
      let rest := fids_in_path_diags ids ds
      (d.path.flatMap pathElemFids ++ rest.1, d :: rest.2)

/-- `fids_in_path(report_data, file_ids_to_remove)`. -/
def fids_in_path (p : ParsedPlist) (ids : List Nat) : List Nat × List Diag :=
  fids_in_path_diags ids p.diagnostics

/-- The `for i, f in enumerate(report_data['files'])` collection of
indices whose file the skip handler wants removed, starting at index
`i`. -/
def idsToRemoveAux (skip : String → Bool) : Nat → List String → List Nat
  | _, [] => []
  | i, f :: fs =>
    if skip f then i :: idsToRemoveAux skip (i + 1) fs
    else idsToRemoveAux skip (i + 1) fs

/-- `file_ids_to_remove` as built by `remove_report_from_plist`. -/
def idsToRemove (skip : String → Bool) (files : List String) : List Nat :=
  idsToRemoveAux skip 0 files

/-- Result of `remove_report_from_plist`: either the original content
unchanged (parse failure or missing key) or the re-serialized filtered
plist. -/
inductive FilterResult where
  | original
  | filtered (p : ParsedPlist)
deriving DecidableEq, Repr

/-- `remove_report_from_plist(plist_content, skip_handler)`:
on a parse failure or a missing top-level key the original content is
returned unchanged; otherwise the diagnostics are replaced by the kept
ones and the files array is left untouched. -/
def remove_report_from_plist (skip : String → Bool) : PlistInput → FilterResult
  | .malformed => .original
  | .noDiagnosticsKey _ => .original
  | .ok p =>
    let ids := idsToRemove skip p.files
    .filtered ⟨p.files, (fids_in_path p ids).2⟩

/-- In-memory state of `GenericSuppressHandler`: the loaded
`(hash, file name, comment)` records and the `allow_write` flag. -/
structure GenericSuppressHandler where
  suppress_info : List (String × String × String)
  allow_write : Bool
deriving DecidableEq, Repr

/-- `GenericSuppressHandler.get_suppressed(bug)`: true iff some stored
record matches the bug's hash and the basename of the bug's file
path. -/
def get_suppressed (h : GenericSuppressHandler) (bug_hash_value bug_file_path : String) :
    Bool :=
  h.suppress_info.any
    (fun s => s.1 == bug_hash_value && s.2.1 == basename bug_file_path)

/-- `GenericSuppressHandler.store_suppress_bug_id`.  Modelled from the
spec: `suppress_file_handler.write_to_suppress_file` and the reload in
`__revalidate_suppress_data` are outside src/; per spec section 4.4 an
add is a no-op when not writable, otherwise an append to the backing
store followed by a full reload. -/
def store_suppress_bug_id (h : GenericSuppressHandler) (bug_id file_name comment : String) :
    GenericSuppressHandler :=
  if h.allow_write then
    { h with suppress_info := h.suppress_info ++ [(bug_id, file_name, comment)] }
  else h

/-- Number of tab characters in a string. -/
def countTabs (s : String) : Nat :=
  (s.toList.filter (fun c => c = '\t')).length

/-- `PlistToPlaintextFormatter.__format_location(event, source_file)`:
the source line with tabs widened to two spaces, a marker line of
spaces (one extra per tab in the prefix before the column) and a caret;
the empty string when the line cannot be read. -/
def format_location (getLine : String → Nat → String) (loc : Loc) (source_file : String) :
    String :=
  let line := getLine source_file loc.line
  if line = "" then line
  else
    let marker_src := line.take (loc.col - 1)
    let marker_line := String.mk (List.replicate (marker_src.length + countTabs marker_src) ' ')
    line.replace "\t" "  " ++ marker_line ++ "^"

/-- `PlistToPlaintextFormatter.__format_bug_event(name, severity, event,
source_file)`.  The event's location and message are passed explicitly;
a falsy `name` (absent or empty) selects the undecorated form, and a
`None` severity prints as `"None"` (unreachable from the callers). -/
def format_bug_event (name : Option String) (severity : Option String) (ev_loc : Loc)
    (message : String) (source_file : String) : String :=
  let fname := basename source_file
  match name with
  | some n =>
    if n = "" then
      fname ++ ":" ++ toString ev_loc.line ++ ":" ++ toString ev_loc.col ++ ": " ++ message
    else
      "[" ++ severity.getD "None" ++ "] " ++ fname ++ ":" ++ toString ev_loc.line ++ ":" ++
        toString ev_loc.col ++ ": " ++ message ++ " [" ++ n ++ "]"
  | none =>
    fname ++ ":" ++ toString ev_loc.line ++ ":" ++ toString ev_loc.col ++ ": " ++ message

/-- Structurally recursive `floor(log10 n)` (the fuel argument only
bounds the recursion depth): 0 for `n < 10`, else one more than the
value at `n / 10`.  Models Python
`int(math.floor(math.log10(report_num)))` for `report_num >= 1`. -/
def log10floorAux : Nat → Nat → Nat
  | 0, _ => 0
  | fuel + 1, n => if n < 10 then 0 else log10floorAux fuel (n / 10) + 1

/-- Floor of the base-10 logarithm, total with value 0 below 10. -/
def log10floor (n : Nat) : Nat :=
  log10floorAux n n

/-- Python `'%Nd' % n`: the decimal digits right-justified with spaces
to width `w` (never truncated). -/
def padLeftNum (w : Nat) (n : Nat) : String :=
  let s := toString n
  String.mk (List.replicate (w - s.length) ' ') ++ s

/-- The `index_format` string `'    %Nd, '` of `__write_bugs` applied to
an index (Python `index_format % (index + 1)`). -/
def index_format (w : Nat) (n : Nat) : String :=
  "    " ++ padLeftNum w n ++ ", "

/-- The `for index, event in enumerate(events)` loop of the
step-printing branch, starting at 0-based index `idx`.  An absent
location or message key, or an out-of-range file index, raises
(uncaught) in the source and is an error here. -/
def renderStepsAux (w : Nat) (files : List String) : Nat → List PathElem → Except Unit String
  | _, [] => .ok ""
  | idx, ev :: rest =>
    match ev.location with
    | none => .error ()
    | some l =>
      match files.get? l.file with
      | none => .error ()
      | some sf =>
        match ev.message with
        | none => .error ()
        | some msg =>
          match renderStepsAux w files (idx + 1) rest with
          | .error e => .error e
          | .ok s =>
            .ok (index_format w (idx + 1) ++ format_bug_event none none l msg sf ++ "\n" ++ s)

/-- Characterization of the step enumeration: every step in order gets
a 1-based index (starting at `idx`) rendered through `index_format`
with width `w`, followed by its undecorated event line. -/
def stepsRendering (w : Nat) (files : List String) : Nat → List PathElem → String
  | _, [] => ""
  | idx, ev :: rest =>
    index_format w idx ++
      (match ev.location, ev.message with
       | some l, some msg =>
         (match files.get? l.file with
          | some sf => format_bug_event none none l msg sf
          | none => "")
       | _, _ => "") ++ "\n" ++ stepsRendering w files (idx + 1) rest

/-- One iteration of the `for report in reports` loop of
`__write_bugs`.  The result is `none` when the report is dropped
(skip-listed, suppressed by the store, or matched by an inline
suppression marker — in the last case the store is updated), or
`some (text, f_path, severity)` with the text written for the report
and the values the statistics are bumped with.  `Except.error` models
an uncaught exception (`IndexError` on an empty event list or an
out-of-range file index, `KeyError` on a missing dictionary key). -/
def processReport (getLine : String → Nat → String)
    (inline : String → Nat → String → String → Option (String × String × String))
    (smap : List (String × String)) (skip : Option (String → Bool))
    (print_steps : Bool) (w : Nat) (files : List String)
    (r : Report) (sup : Option GenericSuppressHandler) :
    Except Unit (Option (String × String × String) × Option GenericSuppressHandler) :=
  let events := r.bug_path.filter (fun i => i.kind == some "event")
  match events.getLast? with
  | none => .error ()
  | some lastEv =>
    match lastEv.location with
    | none => .error ()
    | some lloc =>
      match files.get? lloc.file with
      | none => .error ()
      | some f_path =>
        if (match skip with | some sk => sk f_path | none => false) then
          .ok (none, sup)
        else if (match sup with
                 | some sh => get_suppressed sh r.main_hash f_path
                 | none => false) then
          .ok (none, sup)
        else
          match r.bug_path.getLast? with
          | none => .error ()
          | some lastStep =>
            match lastStep.location with
            | none => .error ()
            | some rloc =>
              match files.get? rloc.file with
              | none => .error ()
              | some source_file =>
                match inline source_file rloc.line r.main_hash r.main_check_name with
                | some (hv, fn, cm) =>
                  .ok (none,
                    match sup with
                    | some sh => some (store_suppress_bug_id sh hv fn cm)
                    | none => none)
                | none =>
                  match lastStep.message with
                  | none => .error ()
                  | some msg =>
                    let severity := (smap.lookup r.main_check_name).getD "UNSPECIFIED"
                    let header :=
                      format_bug_event (some r.main_check_name) (some severity) rloc msg
                        source_file
                    match (if print_steps then
                             match renderStepsAux w files 0 events with
                             | .error e => Except.error e
                             | .ok s =>
                               Except.ok ("  Report hash: " ++ r.main_hash ++ "\n" ++
                                 "  Steps:\n" ++ s)
                           else Except.ok "") with
                    | .error e => .error e
                    | .ok stepsPart =>
                      .ok (some (header ++ "\n" ++
                             format_location getLine rloc source_file ++ "\n" ++
                             stepsPart ++ "\n", f_path, severity), sup)

/-- Mutable state of one `__write_bugs` pass: the three statistics
maps, the `non_suppressed` counter, the text written so far and the
(possibly updated) suppress handler. -/
structure WBState where
  severity_stats : List (String × Nat)
  file_stats : List (String × Nat)
  report_count : List (String × Nat)
  non_suppressed : Nat
  out : String
  sup : Option GenericSuppressHandler
deriving DecidableEq, Repr

/-- Increment of a `defaultdict(int)` entry. -/
def bump (m : List (String × Nat)) (k : String) : List (String × Nat) :=
  match m with
  | [] => [(k, 1)]
  | (k', v) :: rest => if k' = k then (k', v + 1) :: rest else (k', v) :: bump rest k

/-- Sum of the values of a statistics map (Python
`sum(stats.values())`). -/
def sumVals (m : List (String × Nat)) : Nat :=
  (m.map (fun p => p.2)).sum

/-- Initial `__write_bugs` state: empty statistics, nothing written. -/
def initWB (sup : Option GenericSuppressHandler) : WBState :=
  ⟨[], [], [], 0, "", sup⟩

/-- The report loop of `__write_bugs`: a dropped report leaves the
statistics and output untouched, a rendered one bumps all three maps
and the counter and appends its text. -/
def writeLoop (getLine : String → Nat → String)
    (inline : String → Nat → String → String → Option (String × String × String))
    (smap : List (String × String)) (skip : Option (String → Bool))
    (print_steps : Bool) (w : Nat) (files : List String) :
    List Report → WBState → Except Unit WBState
  | [], st => .ok st
  | r :: rs, st =>
    match processReport getLine inline smap skip print_steps w files r st.sup with
    | .error e => .error e
    | .ok (none, sup') =>
      writeLoop getLine inline smap skip print_steps w files rs { st with sup := sup' }
    | .ok (some (text, f_path, severity), sup') =>
      writeLoop getLine inline smap skip print_steps w files rs
        { severity_stats := bump st.severity_stats severity,
          file_stats := bump st.file_stats f_path,
          report_count := bump st.report_count "report_count",
          non_suppressed := st.non_suppressed + 1,
          out := st.out ++ text,
          sup := sup' }

/-- The three statistics maps `__write_bugs` stores into
`report_stats` under the keys `severity`, `files` and `reports`. -/
structure Stats where
  severity : List (String × Nat)
  files : List (String × Nat)
  reports : List (String × Nat)
deriving DecidableEq, Repr

/-- Body of `__write_bugs` with the step-index width `w` as an
explicit parameter: runs the report loop, then writes the summary line
and fills the statistics.  The result is the full text written to
`output`, the statistics and the final suppress handler; an error is an
uncaught exception from the loop. -/
def write_bugs_at (getLine : String → Nat → String)
    (inline : String → Nat → String → String → Option (String × String × String))
    (smap : List (String × String)) (skip : Option (String → Bool))
    (print_steps : Bool) (w : Nat) (reports : List Report) (files : List String)
    (analyzed_source_file : String) (sup : Option GenericSuppressHandler) :
    Except Unit (String × Stats × Option GenericSuppressHandler) :=
  match writeLoop getLine inline smap skip print_steps w files reports (initWB sup) with
  | .error e => .error e
  | .ok st =>
    let basefile_print :=
      if analyzed_source_file ≠ "" then " " ++ basename analyzed_source_file else ""
    let summary :=
      if st.non_suppressed = 0 then
        "Found no defects while analyzing" ++ basefile_print ++ "\n"
      else
        "Found " ++ toString st.non_suppressed ++ " defect(s) while analyzing" ++
          basefile_print ++ "\n\n"
    .ok (st.out ++ summary, ⟨st.severity_stats, st.file_stats, st.report_count⟩, st.sup)

/-- `PlistToPlaintextFormatter.__write_bugs(output, reports, files,
analyzed_source_file, report_stats)`: the step-index width is
`int(math.floor(math.log10(report_num)) + 1)` computed from the number
of reports (`report_num = len(reports)`, only used when positive). -/
def write_bugs (getLine : String → Nat → String)
    (inline : String → Nat → String → String → Option (String × String × String))
    (smap : List (String × String)) (skip : Option (String → Bool))
    (print_steps : Bool) (reports : List Report) (files : List String)
    (analyzed_source_file : String) (sup : Option GenericSuppressHandler) :
    Except Unit (String × Stats × Option GenericSuppressHandler) :=
  write_bugs_at getLine inline smap skip print_steps (log10floor reports.length + 1)
    reports files analyzed_source_file sup

/-- Concatenation of a list of rendered texts. -/
def concatList : List String → String
  | [] => ""
  | s :: rest => s ++ concatList rest

/-- Modelled from the spec: the step-index rendering the C8 claim
wording prescribes, right-justified to the width of the *total step
count* (the digits of the number of steps) instead of the report
count. -/
def claimed_index_format (total_steps idx : Nat) : String :=
  "    " ++ padLeftNum (log10floor total_steps + 1) idx ++ ", "

/-- Return value of `parse_and_write`: the distinguished failure
indicator `1` or the `report_stats` mapping (together with the written
text and final suppress handler, which go to the output stream and the
handler in the source). -/
inductive PWResult where
  | failure
  | stats (out : String) (stats : Stats) (sup : Option GenericSuppressHandler)
deriving DecidableEq, Repr

/-- `PlistToPlaintextFormatter.parse_and_write(plist_file,
analyzed_source_file, output)`.  The `try` around `parse_plist` would
return the failure indicator `1` (`PWResult.failure`) if parsing
raised; since `parse_plist` ends in `finally: return files, reports` it
never raises, so that branch is unreachable.  The later `__write_bugs`
call sits outside the `try`, so its exceptions propagate. -/
def parse_and_write (hf : HashFn) (getLine : String → Nat → String)
    (inline : String → Nat → String → String → Option (String × String × String))
    (smap : List (String × String)) (skip : Option (String → Bool))
    (print_steps : Bool) (sup : Option GenericSuppressHandler)
    (input : PlistInput) (analyzed_source_file : String) : Except Unit PWResult :=
  let pr := parse_plist hf input none true
  match write_bugs getLine inline smap skip print_steps pr.2 pr.1
      analyzed_source_file sup with
  | .error e => .error e
  | .ok (out, st, sup') => .ok (.stats out st sup')

/-! Concrete inputs used by witnesses and counterexamples. -/

/-- A constant content-hash collaborator. -/
def hfConst : HashFn := fun _ _ _ => "h"

/-- A source-line reader that never finds the line. -/
def glZero : String → Nat → String := fun _ _ => ""

/-- An inline suppression detector that never matches. -/
def ilNone : String → Nat → String → String → Option (String × String × String) :=
  fun _ _ _ _ => none

/-- Location pointing at file-table index 0, line 1, column 1. -/
def evLoc : Loc := ⟨0, 1, 1⟩

/-- An event-kind path step at `evLoc` with message `"m"`. -/
def evStep : PathElem := ⟨some "event", some evLoc, some "m", none, none⟩

/-- A control-kind path step at `evLoc` with message `"m"`. -/
def ctrlStep : PathElem := ⟨some "control", some evLoc, some "m", none, none⟩

/-- A well-formed diagnostic with checker name and hash present. -/
def dGood : Diag := ⟨some "chk", some "h", evLoc, [evStep]⟩

/-- A diagnostic whose location file index 7 is outside a one-entry
file table. -/
def dBad : Diag := ⟨some "chk", some "h", ⟨7, 1, 1⟩, [evStep]⟩

/-- A two-diagnostic bundle whose second diagnostic has an
out-of-range file index. -/
def pW9 : ParsedPlist := ⟨["a.c"], [dGood, dBad]⟩

/-- A well-formed diagnostic lacking the identity-hash key. -/
def dNoHash : Diag := ⟨some "chk", none, evLoc, [evStep]⟩

/-- A one-diagnostic bundle lacking identity hashes. -/
def pW2 : ParsedPlist := ⟨["a.c"], [dNoHash]⟩

/-- A diagnostic whose `check_name` and hash keys are present but
empty. -/
def dEmptyFields : Diag := ⟨some "", some "", evLoc, [evStep]⟩

/-- A report with one event step, used for a rendered pass. -/
def repOk : Report := ⟨"chk", "h", [evStep], ["a.c"]⟩

/-- A report whose path has a step but no event-kind step. -/
def repNoEvent : Report := ⟨"chk", "h", [ctrlStep], ["a.c"]⟩

/-- A parseable diagnostic whose path has no event-kind step. -/
def dCtrl : Diag := ⟨some "chk", some "h", evLoc, [ctrlStep]⟩

/-- A parseable one-diagnostic bundle whose only report has no
event-kind step. -/
def pCtrl : ParsedPlist := ⟨["a.c"], [dCtrl]⟩

/-- A report with ten event steps (step count 10, so the width the
claim predicts for step indices is 2 while one report gives width 1). -/
def rep10 : Report := ⟨"c", "h", List.replicate 10 evStep, ["a.c"]⟩

/-- A diagnostic on file-table index 0. -/
def dOnA : Diag := ⟨some "chk", some "h", ⟨0, 1, 1⟩, [evStep]⟩

/-- A diagnostic on file-table index 1. -/
def dOnB : Diag := ⟨some "chk", some "h", ⟨1, 2, 2⟩, [evStep]⟩

/-- A two-file, two-diagnostic bundle for the exclusion scenario. -/
def pW3 : ParsedPlist := ⟨["a.c", "b.c"], [dOnA, dOnB]⟩

/-- A diagnostic sharing `dOnA`'s location but nothing else (used to
show kept-ness only depends on the location). -/
def dOnA2 : Diag := ⟨none, none, ⟨0, 1, 1⟩, []⟩

/-! Helper lemmas about the parse loop. -/

/-- The reports of the parse loop are exactly those of the longest
all-successful leading segment of the diagnostics; the first
diagnostic after it (if any) is the one that failed. -/
theorem runDiags_split (hf : HashFn) (files : List String) (sr : Option String)
    (ds : List Diag) :
    ∃ pre suf : List Diag,
      ds = pre ++ suf ∧
      (∀ d ∈ pre, (processOne hf files sr d).isSome) ∧
      (∀ d, suf.head? = some d → processOne hf files sr d = none) ∧
      (runDiags hf files sr ds).reports =
        pre.filterMap (fun d => (processOne hf files sr d).map (fun x => x.1)) := by
  induction ds with
  | nil =>
    exact ⟨[], [], rfl, by simp, by simp, by simp [runDiags]⟩
  | cons d ds ih =>
    rcases h : processOne hf files sr d with _ | ⟨r, d', ch⟩
    · refine ⟨[], d :: ds, rfl, by simp, ?_, by simp [runDiags, h]⟩
      intro e he
      rw [List.head?_cons, Option.some.injEq] at he
      exact he ▸ h
    · obtain ⟨pre, suf, hsplit, hpre, hsuf, hrep⟩ := ih
      refine ⟨d :: pre, suf, by simp [hsplit], ?_, hsuf, ?_⟩
      · intro e he
        rcases List.mem_cons.mp he with rfl | he
        · simp [h]
        · exact hpre e he
      · simp [runDiags, h, hrep, List.filterMap_cons]

/-- When every diagnostic before `d` processes successfully and `d`
fails, the loop keeps exactly the earlier reports and records the
exception. -/
theorem runDiags_fail_at (hf : HashFn) (files : List String) (sr : Option String)
    (d : Diag) (suf : List Diag) :
    ∀ pre : List Diag, (∀ e ∈ pre, (processOne hf files sr e).isSome) →
      processOne hf files sr d = none →
      (runDiags hf files sr (pre ++ d :: suf)).reports =
          pre.filterMap (fun e => (processOne hf files sr e).map (fun x => x.1)) ∧
        (runDiags hf files sr (pre ++ d :: suf)).errored = true := by
  intro pre
  induction pre with
  | nil =>
    intro _ hd
    simp [runDiags, hd]
  | cons e pre ih =>
    intro hpre hd
    have he : (processOne hf files sr e).isSome := hpre e (List.mem_cons_self e pre)
    rcases hx : processOne hf files sr e with _ | ⟨r, e', ch⟩
    · rw [hx] at he; simp at he
    · have := ih (fun g hg => hpre g (List.mem_cons_of_mem e hg)) hd
      simp [runDiags, hx, List.filterMap_cons, this.1, this.2]

/-- A diagnostic whose file index is in range processes successfully
into `repOne`/`updOne`. -/
theorem processOne_eq_of_lt (hf : HashFn) (files : List String) (sr : Option String)
    (d : Diag) (h : d.location.file < files.length) :
    processOne hf files sr d =
      some (repOne hf files sr d, updOne hf files sr d, d.issue_hash.isNone) := by
  unfold processOne
  rw [List.get?_eq_get h]
  rfl

/-- On a bundle whose file indices are all in range, the loop maps
`repOne`/`updOne` over the diagnostics, the dirty flag is exactly
"some diagnostic lacked its hash", and no exception occurs. -/
theorem runDiags_valid (hf : HashFn) (files : List String) (sr : Option String) :
    ∀ ds : List Diag, (∀ d ∈ ds, d.location.file < files.length) →
      runDiags hf files sr ds =
        ⟨ds.map (repOne hf files sr), ds.map (updOne hf files sr),
         ds.any (fun d => d.issue_hash.isNone), false⟩ := by
  intro ds
  induction ds with
  | nil => intro _; rfl
  | cons d ds ih =>
    intro hv
    have h1 : d.location.file < files.length := hv d (List.mem_cons_self d ds)
    have h2 := ih (fun e he => hv e (List.mem_cons_of_mem d he))
    simp [runDiags, processOne_eq_of_lt hf files sr d h1, h2]

/-- Writing the hash back does not move the diagnostic's location. -/
theorem updOne_location (hf : HashFn) (files : List String) (sr : Option String) (d : Diag) :
    (updOne hf files sr d).location = d.location := by
  unfold updOne
  split <;> rfl

/-- After `updOne` the hash key is always present. -/
theorem updOne_isSome (hf : HashFn) (files : List String) (sr : Option String) (d : Diag) :
    (updOne hf files sr d).issue_hash.isSome := by
  unfold updOne
  cases hh : d.issue_hash <;> simp [hh]

/-- The resolved source path only depends on the location, which
`updOne` preserves. -/
theorem resolveSourcePath_updOne (hf : HashFn) (files : List String) (sr : Option String)
    (d : Diag) :
    resolveSourcePath files sr (updOne hf files sr d) = resolveSourcePath files sr d := by
  unfold resolveSourcePath
  rw [updOne_location]

/-- Reading the hash of a diagnostic whose hash key was just set. -/
theorem get_report_hash_set (hf : HashFn) (d : Diag) (s H : String) :
    get_report_hash hf { d with issue_hash := some H } s =
      if H = "" then hf d.path s (get_checker_name d) else H := rfl

/-- Re-resolving the hash of an enriched diagnostic reproduces the
original hash (the external hash function is a fixed function, hence
deterministic). -/
theorem get_report_hash_updOne (hf : HashFn) (files : List String) (sr : Option String)
    (d : Diag) :
    get_report_hash hf (updOne hf files sr d)
        (resolveSourcePath files sr (updOne hf files sr d)) =
      get_report_hash hf d (resolveSourcePath files sr d) := by
  rw [resolveSourcePath_updOne]
  unfold updOne
  cases hh : d.issue_hash with
  | some x => simp [hh]
  | none =>
    simp only [hh, Option.isNone_none, if_true]
    rw [get_report_hash_set]
    have hd : get_report_hash hf d (resolveSourcePath files sr d)
        = hf d.path (resolveSourcePath files sr d) (get_checker_name d) := by
      simp [get_report_hash, hh]
    rw [hd]
    split <;> rfl

/-- The report built from an enriched diagnostic carries the same
identity hash as the report built from the original diagnostic. -/
theorem repOne_updOne_hash (hf : HashFn) (files : List String) (sr : Option String)
    (d : Diag) :
    (repOne hf files sr (updOne hf files sr d)).main_hash =
      (repOne hf files sr d).main_hash := by
  simp [repOne, get_report_hash_updOne]

/-! Helper lemmas about the exclusion filter. -/

/-- The kept diagnostics of `fids_in_path` are exactly the ordered
filter by "location file id not among the ids to remove". -/
theorem fids_in_path_kept (ids : List Nat) (ds : List Diag) :
    (fids_in_path_diags ids ds).2 =
      ds.filter (fun d => !(decide (d.location.file ∈ ids))) := by
  induction ds with
  | nil => rfl
  | cons d ds ih =>
    by_cases h : d.location.file ∈ ids
    · simp [fids_in_path_diags, h, List.filter_cons, ih]
    · simp [fids_in_path_diags, h, List.filter_cons, ih]

/-- Membership in the enumerate-and-collect loop, for an arbitrary
starting index. -/
theorem mem_idsToRemoveAux (skip : String → Bool) :
    ∀ (fs : List String) (i j : Nat),
      j ∈ idsToRemoveAux skip i fs ↔
        ∃ k f, fs.get? k = some f ∧ skip f = true ∧ j = i + k := by
  intro fs
  induction fs with
  | nil => intro i j; simp [idsToRemoveAux]
  | cons f fs ih =>
    intro i j
    by_cases hf : skip f
    · simp only [idsToRemoveAux, hf, if_true]
      constructor
      · intro h
        rcases List.mem_cons.mp h with rfl | h
        · exact ⟨0, f, rfl, hf, by omega⟩
        · obtain ⟨k, g, h1, h2, h3⟩ := (ih (i + 1) j).mp h
          exact ⟨k + 1, g, by simpa using h1, h2, by omega⟩
      · rintro ⟨k, g, h1, h2, h3⟩
        cases k with
        | zero =>
          rw [List.get?_cons_zero, Option.some.injEq] at h1
          subst h1
          have hj : j = i := by omega
          subst hj
          exact List.mem_cons_self _ _
        | succ k =>
          rw [List.get?_cons_succ] at h1
          exact List.mem_cons_of_mem i ((ih (i + 1) j).mpr ⟨k, g, h1, h2, by omega⟩)
    · simp only [idsToRemoveAux, hf, Bool.false_eq_true, if_false]
      rw [ih (i + 1) j]
      constructor
      · rintro ⟨k, g, h1, h2, h3⟩
        exact ⟨k + 1, g, by simpa using h1, h2, by omega⟩
      · rintro ⟨k, g, h1, h2, h3⟩
        cases k with
        | zero =>
          rw [List.get?_cons_zero, Option.some.injEq] at h1
          subst h1
          exact absurd h2 (by simp [hf])
        | succ k =>
          rw [List.get?_cons_succ] at h1
          exact ⟨k, g, h1, h2, by omega⟩

/-- An index is removed iff its file-table entry is skipped. -/
theorem mem_idsToRemove (skip : String → Bool) (files : List String) (j : Nat) :
    j ∈ idsToRemove skip files ↔ ∃ f, files.get? j = some f ∧ skip f = true := by
  unfold idsToRemove
  rw [mem_idsToRemoveAux]
  constructor
  · rintro ⟨k, f, h1, h2, h3⟩
    have : j = k := by omega
    subst this
    exact ⟨f, h1, h2⟩
  · rintro ⟨f, h1, h2⟩
    exact ⟨j, f, h1, h2, by omega⟩

/-! Helper lemmas about the formatter. -/

/-- Bumping a statistics map increases the sum of its values by one. -/
theorem bump_sum (m : List (String × Nat)) (k : String) :
    sumVals (bump m k) = sumVals m + 1 := by
  induction m with
  | nil => rfl
  | cons p rest ih =>
    obtain ⟨k', v⟩ := p
    by_cases h : k' = k
    · simp [bump, h, sumVals]
      omega
    · simp only [bump, h, if_false, sumVals, List.map_cons, List.sum_cons] at ih ⊢
      omega

/-- Loop invariant of `__write_bugs`: a successful pass extends the
output by one text per rendered report and bumps each statistics sum
and the counter by exactly the number of rendered reports; dropped
reports contribute nothing. -/
theorem writeLoop_stats (gl : String → Nat → String)
    (il : String → Nat → String → String → Option (String × String × String))
    (smap : List (String × String)) (skip : Option (String → Bool)) (ps : Bool)
    (w : Nat) (files : List String) :
    ∀ (rs : List Report) (st st' : WBState),
      writeLoop gl il smap skip ps w files rs st = .ok st' →
      ∃ texts : List String,
        sumVals st'.severity_stats = sumVals st.severity_stats + texts.length ∧
        sumVals st'.file_stats = sumVals st.file_stats + texts.length ∧
        sumVals st'.report_count = sumVals st.report_count + texts.length ∧
        st'.non_suppressed = st.non_suppressed + texts.length ∧
        st'.out = st.out ++ concatList texts := by
  intro rs
  induction rs with
  | nil =>
    intro st st' h
    simp only [writeLoop, Except.ok.injEq] at h
    subst h
    exact ⟨[], by simp, by simp, by simp, by simp, by simp [concatList]⟩
  | cons r rs ih =>
    intro st st' h
    simp only [writeLoop] at h
    cases hp : processReport gl il smap skip ps w files r st.sup with
    | error e => rw [hp] at h; exact absurd h (by simp)
    | ok val =>
      obtain ⟨o, sup'⟩ := val
      cases o with
      | none =>
        rw [hp] at h
        obtain ⟨texts, h1, h2, h3, h4, h5⟩ := ih _ _ h
        exact ⟨texts, by simpa using h1, by simpa using h2, by simpa using h3,
          by simpa using h4, by simpa using h5⟩
      | some triple =>
        obtain ⟨text, fp, sev⟩ := triple
        rw [hp] at h
        obtain ⟨texts, h1, h2, h3, h4, h5⟩ := ih _ _ h
        refine ⟨text :: texts, ?_, ?_, ?_, ?_, ?_⟩
        · simp only at h1; rw [h1, bump_sum]; simp; omega
        · simp only at h2; rw [h2, bump_sum]; simp; omega
        · simp only at h3; rw [h3, bump_sum]; simp; omega
        · simp only at h4; rw [h4]; simp; omega
        · simp only at h5
          rw [h5, String.append_assoc]
          rfl

/-- Sum of an empty statistics map. -/
theorem sumVals_nil : sumVals [] = 0 := rfl

/-- Full characterization of a rendered report: every guard along the
way held, the display file comes from the last event-kind step, and
the text is the header, location block, optional steps section and a
blank line; the suppress handler is unchanged. -/
theorem processReport_rendered_shape (gl : String → Nat → String)
    (il : String → Nat → String → String → Option (String × String × String))
    (smap : List (String × String)) (skip : Option (String → Bool)) (ps : Bool)
    (w : Nat) (files : List String) (r : Report) (sup : Option GenericSuppressHandler)
    (t fp sv : String) (sup' : Option GenericSuppressHandler)
    (hp : processReport gl il smap skip ps w files r sup = .ok (some (t, fp, sv), sup')) :
    ∃ ev l lastStep rloc source_file msg stepsPart,
      (r.bug_path.filter (fun i => i.kind == some "event")).getLast? = some ev ∧
      ev.location = some l ∧
      files.get? l.file = some fp ∧
      r.bug_path.getLast? = some lastStep ∧
      lastStep.location = some rloc ∧
      files.get? rloc.file = some source_file ∧
      lastStep.message = some msg ∧
      ((ps = true ∧ ∃ s,
          renderStepsAux w files 0
            (r.bug_path.filter (fun i => i.kind == some "event")) = .ok s ∧
          stepsPart = "  Report hash: " ++ r.main_hash ++ "\n" ++ "  Steps:\n" ++ s) ∨
        (ps = false ∧ stepsPart = "")) ∧
      sv = (smap.lookup r.main_check_name).getD "UNSPECIFIED" ∧
      t = format_bug_event (some r.main_check_name) (some sv) rloc msg source_file ++
          "\n" ++ format_location gl rloc source_file ++ "\n" ++ stepsPart ++ "\n" ∧
      sup' = sup := by
  simp only [processReport] at hp
  cases hev : (r.bug_path.filter (fun i => i.kind == some "event")).getLast? with
  | none =>
    simp only [hev] at hp
    exact Except.noConfusion hp
  | some ev =>
    simp only [hev] at hp
    cases hl : ev.location with
    | none =>
      simp only [hl] at hp
      exact Except.noConfusion hp
    | some l =>
      simp only [hl] at hp
      cases hf : files.get? l.file with
      | none =>
        simp only [hf] at hp
        exact Except.noConfusion hp
      | some fpath =>
        simp only [hf] at hp
        split at hp
        · simp at hp
        · split at hp
          · simp at hp
          · cases hls : r.bug_path.getLast? with
            | none =>
              simp only [hls] at hp
              exact Except.noConfusion hp
            | some lastStep =>
              simp only [hls] at hp
              cases hll : lastStep.location with
              | none =>
                simp only [hll] at hp
                exact Except.noConfusion hp
              | some rloc =>
                simp only [hll] at hp
                cases hsf : files.get? rloc.file with
                | none =>
                  simp only [hsf] at hp
                  exact Except.noConfusion hp
                | some source_file =>
                  simp only [hsf] at hp
                  cases hi : il source_file rloc.line r.main_hash r.main_check_name with
                  | some trip =>
                    obtain ⟨hv, fn, cm⟩ := trip
                    simp only [hi] at hp
                    simp at hp
                  | none =>
                    simp only [hi] at hp
                    cases hm : lastStep.message with
                    | none =>
                      simp only [hm] at hp
                      exact Except.noConfusion hp
                    | some msg =>
                      simp only [hm] at hp
                      cases hps : ps with
                      | false =>
                        subst hps
                        simp only [Bool.false_eq_true, if_false] at hp
                        simp only [Except.ok.injEq, Option.some.injEq,
                          Prod.mk.injEq] at hp
                        obtain ⟨⟨ht, hfp, hsv⟩, hsup⟩ := hp
                        exact ⟨ev, l, lastStep, rloc, source_file, msg, "",
                          rfl, hl, hfp ▸ hf, rfl, hll, hsf, hm,
                          Or.inr ⟨rfl, rfl⟩, hsv.symm,
                          by rw [← ht, ← hsv], hsup.symm⟩
                      | true =>
                        subst hps
                        simp only [if_true] at hp
                        cases hrs : renderStepsAux w files 0
                            (r.bug_path.filter (fun i => i.kind == some "event")) with
                        | error e =>
                          simp only [hrs] at hp
                          exact Except.noConfusion hp
                        | ok s =>
                          simp only [hrs] at hp
                          simp only [Except.ok.injEq, Option.some.injEq,
                            Prod.mk.injEq] at hp
                          obtain ⟨⟨ht, hfp, hsv⟩, hsup⟩ := hp
                          exact ⟨ev, l, lastStep, rloc, source_file, msg,
                            "  Report hash: " ++ r.main_hash ++ "\n" ++ "  Steps:\n" ++ s,
                            rfl, hl, hfp ▸ hf, rfl, hll, hsf, hm,
                            Or.inl ⟨rfl, s, rfl, rfl⟩, hsv.symm,
                            by rw [← ht, ← hsv], hsup.symm⟩

/-- A successful step enumeration renders exactly the 1-based
`index_format`-indexed event lines. -/
theorem renderStepsAux_ok (w : Nat) (files : List String) :
    ∀ (evs : List PathElem) (i : Nat) (s : String),
      renderStepsAux w files i evs = .ok s →
      s = stepsRendering w files (i + 1) evs := by
  intro evs
  induction evs with
  | nil =>
    intro i s h
    simp only [renderStepsAux, Except.ok.injEq] at h
    rw [← h]
    rfl
  | cons ev rest ih =>
    intro i s h
    simp only [renderStepsAux] at h
    cases hl : ev.location with
    | none =>
      simp only [hl] at h
      exact Except.noConfusion h
    | some l =>
      simp only [hl] at h
      cases hf : files.get? l.file with
      | none =>
        simp only [hf] at h
        exact Except.noConfusion h
      | some sf =>
        simp only [hf] at h
        cases hm : ev.message with
        | none =>
          simp only [hm] at h
          exact Except.noConfusion h
        | some msg =>
          simp only [hm] at h
          cases hr : renderStepsAux w files (i + 1) rest with
          | error e =>
            simp only [hr] at h
            exact Except.noConfusion h
          | ok s2 =>
            simp only [hr, Except.ok.injEq] at h
            rw [← h, ih (i + 1) s2 hr]
            simp only [stepsRendering, hl, hf, hm]

/-! Claim theorems. -/

/-- C1: for every input, including malformed or unparseable content,
`parse_plist` returns a `(fileTable, diagnostics)` pair and never
propagates an exception: the pair holds whatever file table was
already read together with the reports of the longest successfully
processed leading segment of the diagnostics (all of them when nothing
fails, none on inputs that fail before the loop). -/
theorem C1_parse_plist_always_returns_pair (hf : HashFn) (input : PlistInput)
    (sr : Option String) (allow : Bool) :
    ∃ pre suf : List Diag,
      inputDiags input = pre ++ suf ∧
      (∀ d ∈ pre, (processOne hf (inputFiles input) sr d).isSome) ∧
      (∀ d, suf.head? = some d → processOne hf (inputFiles input) sr d = none) ∧
      parse_plist hf input sr allow =
        (inputFiles input,
         pre.filterMap (fun d => (processOne hf (inputFiles input) sr d).map (fun x => x.1))) := by
  cases input with
  | malformed =>
    exact ⟨[], [], rfl, by simp, by simp, by simp [parse_plist, parse_plist_full, inputFiles]⟩
  | noDiagnosticsKey fs =>
    exact ⟨[], [], rfl, by simp, by simp, by simp [parse_plist, parse_plist_full, inputFiles]⟩
  | ok p =>
    obtain ⟨pre, suf, h1, h2, h3, h4⟩ := runDiags_split hf p.files sr p.diagnostics
    exact ⟨pre, suf, h1, h2, h3, by simp [parse_plist, parse_plist_full, inputFiles, h4]⟩

/-- Witness for C1: the characterization evaluated on a concrete
bundle whose second diagnostic fails. -/
theorem C1_witness :
    ∃ pre suf : List Diag,
      inputDiags (PlistInput.ok pW9) = pre ++ suf ∧
      (∀ d ∈ pre, (processOne hfConst (inputFiles (PlistInput.ok pW9)) none d).isSome) ∧
      (∀ d, suf.head? = some d →
        processOne hfConst (inputFiles (PlistInput.ok pW9)) none d = none) ∧
      parse_plist hfConst (PlistInput.ok pW9) none true =
        (inputFiles (PlistInput.ok pW9),
         pre.filterMap (fun d =>
           (processOne hfConst (inputFiles (PlistInput.ok pW9)) none d).map
             (fun x => x.1))) :=
  C1_parse_plist_always_returns_pair hfConst (PlistInput.ok pW9) none true

/-- C9: when one diagnostic is defective (its file reference is out of
range), processing of that diagnostic is abandoned and `parse_plist`
still returns its best-effort `(fileTable, diagnostics)` result holding
the diagnostics successfully parsed before it. -/
theorem C9_partial_record_best_effort (hf : HashFn) (p : ParsedPlist) (sr : Option String)
    (allow : Bool) (pre : List Diag) (d : Diag) (suf : List Diag)
    (hsplit : p.diagnostics = pre ++ d :: suf)
    (hpre : ∀ e ∈ pre, (processOne hf p.files sr e).isSome)
    (hd : processOne hf p.files sr d = none) :
    parse_plist hf (.ok p) sr allow =
      (p.files, pre.filterMap (fun e => (processOne hf p.files sr e).map (fun x => x.1))) := by
  have h := runDiags_fail_at hf p.files sr d suf pre hpre hd
  simp [parse_plist, parse_plist_full, hsplit, h.1]

/-- Witness for C9: a two-diagnostic bundle whose second diagnostic
references file index 7 in a one-entry table yields the table and the
first report. -/
theorem C9_witness :
    parse_plist hfConst (PlistInput.ok pW9) none true =
      (["a.c"],
       [dGood].filterMap (fun e => (processOne hfConst ["a.c"] none e).map (fun x => x.1))) :=
  C9_partial_record_best_effort hfConst pW9 none true [dGood] dBad [] rfl (by decide)
    (by decide)

/-- C2: on a bundle whose diagnostics all lack the identity hash (and
parse cleanly), parsing with rewriting allowed re-persists the
enriched bundle, and re-parsing the rewritten bundle yields the same
identity hash for each diagnostic and does not trigger a second
rewrite.  Determinism of the external hash function holds because it
is a fixed function argument. -/
theorem C2_enrichment_idempotent (hf : HashFn) (p : ParsedPlist) (sr : Option String)
    (hne : p.diagnostics ≠ [])
    (hnohash : ∀ d ∈ p.diagnostics, d.issue_hash = none)
    (hvalid : ∀ d ∈ p.diagnostics, d.location.file < p.files.length) :
    ∃ p' : ParsedPlist,
      (parse_plist_full hf (.ok p) sr true).rewritten = some p' ∧
      (parse_plist_full hf (.ok p') sr true).rewritten = none ∧
      (parse_plist_full hf (.ok p') sr true).reports.map (fun r => r.main_hash) =
        (parse_plist_full hf (.ok p) sr true).reports.map (fun r => r.main_hash) := by
  have hrun := runDiags_valid hf p.files sr p.diagnostics hvalid
  have hch : p.diagnostics.any (fun d => d.issue_hash.isNone) = true := by
    cases hds : p.diagnostics with
    | nil => exact absurd hds hne
    | cons d rest =>
      have hd0 : d.issue_hash = none :=
        hnohash d (by rw [hds]; exact List.mem_cons_self d rest)
      simp [List.any_cons, hd0]
  have hvalid' : ∀ e ∈ p.diagnostics.map (updOne hf p.files sr),
      e.location.file < p.files.length := by
    intro e he
    obtain ⟨d, hd, rfl⟩ := List.mem_map.mp he
    rw [updOne_location]
    exact hvalid d hd
  have hrun' := runDiags_valid hf p.files sr (p.diagnostics.map (updOne hf p.files sr)) hvalid'
  have hnoch : (p.diagnostics.map (updOne hf p.files sr)).any
      (fun d => d.issue_hash.isNone) = false := by
    rw [List.any_eq_false]
    intro e he
    obtain ⟨d, hd, rfl⟩ := List.mem_map.mp he
    have hs := updOne_isSome hf p.files sr d
    cases hx : (updOne hf p.files sr d).issue_hash with
    | none => rw [hx] at hs; simp at hs
    | some y => simp [hx]
  refine ⟨⟨p.files, p.diagnostics.map (updOne hf p.files sr)⟩, ?_, ?_, ?_⟩
  · simp [parse_plist_full, hrun, hch]
  · simp [parse_plist_full, hrun', hnoch]
  · simp only [parse_plist_full, hrun, hrun']
    simp [List.map_map, Function.comp, repOne_updOne_hash]

/-- Witness for C2: a concrete one-diagnostic bundle without a hash is
rewritten once and stable afterwards. -/
theorem C2_witness :
    ∃ p' : ParsedPlist,
      (parse_plist_full hfConst (.ok pW2) none true).rewritten = some p' ∧
      (parse_plist_full hfConst (.ok p') none true).rewritten = none ∧
      (parse_plist_full hfConst (.ok p') none true).reports.map (fun r => r.main_hash) =
        (parse_plist_full hfConst (.ok pW2) none true).reports.map (fun r => r.main_hash) :=
  C2_enrichment_idempotent hfConst pW2 none (by decide) (by decide) (by decide)

/-- C10: an empty-string field is treated like an absent one — an
empty (or missing) `check_name` resolves to the sentinel `"unknown"`,
and an empty (or missing) identity hash is recomputed by the resolver
instead of being returned as-is. -/
theorem C10_empty_string_fields_treated_as_absent (hf : HashFn) (d : Diag) (src : String) :
    (d.check_name = some "" → get_checker_name d = "unknown") ∧
    (d.check_name = none → get_checker_name d = "unknown") ∧
    (d.issue_hash = some "" →
      get_report_hash hf d src = hf d.path src (get_checker_name d)) ∧
    (d.issue_hash = none →
      get_report_hash hf d src = hf d.path src (get_checker_name d)) := by
  refine ⟨fun h => ?_, fun h => ?_, fun h => ?_, fun h => ?_⟩ <;>
    simp [get_checker_name, get_report_hash, h]

/-- Witness for C10: a diagnostic whose `check_name` and hash are both
present but empty resolves to `"unknown"` and a recomputed hash. -/
theorem C10_witness :
    get_checker_name dEmptyFields = "unknown" ∧
    get_report_hash hfConst dEmptyFields "s" =
      hfConst dEmptyFields.path "s" (get_checker_name dEmptyFields) :=
  ⟨(C10_empty_string_fields_treated_as_absent hfConst dEmptyFields "s").1 rfl,
   (C10_empty_string_fields_treated_as_absent hfConst dEmptyFields "s").2.2.1 rfl⟩

/-- C3: the exclusion filter keeps exactly the diagnostics whose
primary-location file index is not removed (order preserved, file
table returned unchanged); an index is removed iff its file-table
entry satisfies the predicate, so files referenced only in ranges or
edges never cause removal (kept-ness only depends on the location). -/
theorem C3_exclusion_filter_exact (skip : String → Bool) (p : ParsedPlist) :
    remove_report_from_plist skip (.ok p) =
      .filtered ⟨p.files,
        p.diagnostics.filter
          (fun d => !(decide (d.location.file ∈ idsToRemove skip p.files)))⟩ ∧
    (∀ i, i ∈ idsToRemove skip p.files ↔
      ∃ f, p.files.get? i = some f ∧ skip f = true) ∧
    (∀ d d' : Diag, d.location = d'.location →
      (d.location.file ∈ idsToRemove skip p.files ↔
       d'.location.file ∈ idsToRemove skip p.files)) := by
  refine ⟨?_, fun i => mem_idsToRemove skip p.files i, fun d d' h => by rw [h]⟩
  simp [remove_report_from_plist, fids_in_path, fids_in_path_kept]

/-- Witness for C3: excluding `"b.c"` from a two-file bundle keeps the
file table and filters by the location file id; removal of index 1 is
equivalent to its entry being skipped, and a location-equal diagnostic
is removed or kept identically. -/
theorem C3_witness :
    remove_report_from_plist (fun f => f == "b.c") (.ok pW3) =
      .filtered ⟨pW3.files,
        pW3.diagnostics.filter
          (fun d => !(decide (d.location.file ∈ idsToRemove (fun f => f == "b.c") pW3.files)))⟩ ∧
    ((1 : Nat) ∈ idsToRemove (fun f => f == "b.c") pW3.files ↔
      ∃ f, pW3.files.get? 1 = some f ∧ (f == "b.c") = true) ∧
    (dOnA.location.file ∈ idsToRemove (fun f => f == "b.c") pW3.files ↔
      dOnA2.location.file ∈ idsToRemove (fun f => f == "b.c") pW3.files) :=
  ⟨(C3_exclusion_filter_exact (fun f => f == "b.c") pW3).1,
   (C3_exclusion_filter_exact (fun f => f == "b.c") pW3).2.1 1,
   (C3_exclusion_filter_exact (fun f => f == "b.c") pW3).2.2 dOnA dOnA2 rfl⟩

/-- C4: `get_suppressed` is true iff some stored record has the bug's
hash and a stored file name equal to the basename of the bug's file
path; in particular the record `(H, "a.c", "")` suppresses hash `H` at
both `/x/a.c` and `/y/a.c` — directory components never matter. -/
theorem C4_get_suppressed_basename_scoped (info : List (String × String × String))
    (aw : Bool) (bug_hash bug_path : String) :
    (get_suppressed ⟨info, aw⟩ bug_hash bug_path = true ↔
      ∃ s ∈ info, s.1 = bug_hash ∧ s.2.1 = basename bug_path) ∧
    get_suppressed ⟨[("H", "a.c", "")], aw⟩ "H" "/x/a.c" = true ∧
    get_suppressed ⟨[("H", "a.c", "")], aw⟩ "H" "/y/a.c" = true := by
  refine ⟨?_, rfl, rfl⟩
  simp [get_suppressed, List.any_eq_true]

/-- Witness for C4: the characterization at the record from the claim
and the two concrete paths. -/
theorem C4_witness :
    (get_suppressed ⟨[("H", "a.c", "")], false⟩ "H" "/x/a.c" = true ↔
      ∃ s ∈ [("H", "a.c", "")], s.1 = "H" ∧ s.2.1 = basename "/x/a.c") ∧
    get_suppressed ⟨[("H", "a.c", "")], false⟩ "H" "/x/a.c" = true ∧
    get_suppressed ⟨[("H", "a.c", "")], false⟩ "H" "/y/a.c" = true :=
  C4_get_suppressed_basename_scoped [("H", "a.c", "")] false "H" "/x/a.c"

/-- C5: on any completed rendering pass the severity and file sums
both equal the aggregate report count, which counts exactly the
rendered texts making up the output before the summary line; a report
the loop drops changes neither the statistics nor the output. -/
theorem C5_statistics_consistent (gl : String → Nat → String)
    (il : String → Nat → String → String → Option (String × String × String))
    (smap : List (String × String)) (skip : Option (String → Bool)) (ps : Bool)
    (reports : List Report) (files : List String) (asf : String)
    (sup : Option GenericSuppressHandler) (out : String) (stats : Stats)
    (sup'' : Option GenericSuppressHandler)
    (h : write_bugs gl il smap skip ps reports files asf sup = .ok (out, stats, sup'')) :
    sumVals stats.severity = sumVals stats.reports ∧
    sumVals stats.files = sumVals stats.reports ∧
    (∃ texts : List String,
      texts.length = sumVals stats.reports ∧
      out = concatList texts ++
        (if sumVals stats.reports = 0 then
          "Found no defects while analyzing" ++
            (if asf ≠ "" then " " ++ basename asf else "") ++ "\n"
        else
          "Found " ++ toString (sumVals stats.reports) ++ " defect(s) while analyzing" ++
            (if asf ≠ "" then " " ++ basename asf else "") ++ "\n\n")) ∧
    (∀ (r : Report) (rs : List Report) (st : WBState) (w : Nat)
       (sup₂ : Option GenericSuppressHandler),
      processReport gl il smap skip ps w files r st.sup = .ok (none, sup₂) →
      writeLoop gl il smap skip ps w files (r :: rs) st =
        writeLoop gl il smap skip ps w files rs { st with sup := sup₂ }) := by
  unfold write_bugs write_bugs_at at h
  cases hl : writeLoop gl il smap skip ps (log10floor reports.length + 1) files reports
      (initWB sup) with
  | error e =>
    rw [hl] at h
    exact absurd h (by simp)
  | ok st =>
    rw [hl] at h
    simp only [Except.ok.injEq, Prod.mk.injEq] at h
    obtain ⟨hout, hstats, hsup⟩ := h
    obtain ⟨texts, h1, h2, h3, h4, h5⟩ :=
      writeLoop_stats gl il smap skip ps (log10floor reports.length + 1) files reports
        (initWB sup) st hl
    simp only [initWB, sumVals_nil, Nat.zero_add, String.empty_append] at h1 h2 h3 h4 h5
    subst hstats
    refine ⟨?_, ?_, ⟨texts, ?_, ?_⟩, ?_⟩
    · simp only []
      rw [h1, h3]
    · simp only []
      rw [h2, h3]
    · simp only []
      rw [h3]
    · simp only []
      rw [← hout, h5, h4, h3]
    · intro r rs st₂ w sup₂ hp
      simp only [writeLoop, hp]

/-- Witness for C5: a pass rendering exactly one finding has all three
sums equal to 1 and an output of one text plus the summary line. -/
theorem C5_witness :
    sumVals [("UNSPECIFIED", 1)] = sumVals [("report_count", 1)] ∧
    sumVals [("a.c", 1)] = sumVals [("report_count", 1)] ∧
    (∃ texts : List String,
      texts.length = sumVals [("report_count", 1)] ∧
      "[UNSPECIFIED] a.c:1:1: m [chk]\n\n\nFound 1 defect(s) while analyzing\n\n" =
        concatList texts ++
          (if sumVals [("report_count", 1)] = 0 then
            "Found no defects while analyzing" ++
              (if ("" : String) ≠ "" then " " ++ basename "" else "") ++ "\n"
          else
            "Found " ++ toString (sumVals [("report_count", 1)]) ++
              " defect(s) while analyzing" ++
              (if ("" : String) ≠ "" then " " ++ basename "" else "") ++ "\n\n")) ∧
    (∀ (r : Report) (rs : List Report) (st : WBState) (w : Nat)
       (sup₂ : Option GenericSuppressHandler),
      processReport glZero ilNone [] none false w ["a.c"] r st.sup = .ok (none, sup₂) →
      writeLoop glZero ilNone [] none false w ["a.c"] (r :: rs) st =
        writeLoop glZero ilNone [] none false w ["a.c"] rs { st with sup := sup₂ }) :=
  C5_statistics_consistent glZero ilNone [] none false [repOk] ["a.c"] "" none
    "[UNSPECIFIED] a.c:1:1: m [chk]\n\n\nFound 1 defect(s) while analyzing\n\n"
    ⟨[("UNSPECIFIED", 1)], [("a.c", 1)], [("report_count", 1)]⟩ none rfl

/-- C6 (amended): the display file of a rendered record is
`fileTable[lastEvent.location.file]` where `lastEvent` is the last
event-kind path step; there is no fallback — a record whose path has
no event-kind step makes the formatter fail with an uncaught error. -/
theorem C6_display_file_from_last_event (gl : String → Nat → String)
    (il : String → Nat → String → String → Option (String × String × String))
    (smap : List (String × String)) (skip : Option (String → Bool)) (ps : Bool)
    (w : Nat) (files : List String) (r : Report) (sup : Option GenericSuppressHandler) :
    (r.bug_path.filter (fun i => i.kind == some "event") = [] →
      processReport gl il smap skip ps w files r sup = .error ()) ∧
    (∀ (ev : PathElem) (l : Loc) (t fp sv : String)
       (sup' : Option GenericSuppressHandler),
      (r.bug_path.filter (fun i => i.kind == some "event")).getLast? = some ev →
      ev.location = some l →
      processReport gl il smap skip ps w files r sup = .ok (some (t, fp, sv), sup') →
      files.get? l.file = some fp) := by
  constructor
  · intro h
    simp only [processReport, h, List.getLast?_nil]
  · intro ev l t fp sv sup' hev hl hp
    obtain ⟨ev₂, l₂, _, _, _, _, _, hev₂, hl₂, hf₂, _, _, _, _, _, _, _, _⟩ :=
      processReport_rendered_shape gl il smap skip ps w files r sup t fp sv sup' hp
    rw [hev] at hev₂
    injection hev₂ with hev₃
    subst hev₃
    rw [hl] at hl₂
    injection hl₂ with hl₃
    subst hl₃
    exact hf₂

/-- Counterexample for C6: a report whose path has a (control) step
but no event-kind step makes the rendering pass fail instead of
falling back to the last path step. -/
theorem C6_counterexample :
    write_bugs glZero ilNone [] none false [repNoEvent] ["a.c"] "" none = .error () ∧
    repNoEvent.bug_path ≠ [] ∧
    repNoEvent.bug_path.filter (fun i => i.kind == some "event") = [] :=
  ⟨rfl, by decide, rfl⟩

/-- Witness for C6 (amended): the no-event report fails, and for a
rendered one-event report the display file is the table entry at the
last event's location. -/
theorem C6_witness :
    processReport glZero ilNone [] none false 1 ["a.c"] repNoEvent none = .error () ∧
    (["a.c"] : List String).get? evLoc.file = some "a.c" :=
  ⟨(C6_display_file_from_last_event glZero ilNone [] none false 1 ["a.c"] repNoEvent
      none).1 rfl,
   (C6_display_file_from_last_event glZero ilNone [] none false 1 ["a.c"] repOk none).2
     evStep evLoc "[UNSPECIFIED] a.c:1:1: m [chk]\n\n\n" "a.c" "UNSPECIFIED" none
     rfl rfl rfl⟩

/-- C7 (amended): the failure-indicator branch (`return 1`) is
unreachable because `parse_plist` never raises, so `parse_and_write`
never returns the indicator; whenever rendering succeeds it returns
the statistics mapping — in particular on a malformed bundle it
returns the empty statistics (zero surviving findings), not the
indicator. -/
theorem C7_parse_failure_indicator (hf : HashFn) (gl : String → Nat → String)
    (il : String → Nat → String → String → Option (String × String × String))
    (smap : List (String × String)) (skip : Option (String → Bool)) (ps : Bool)
    (sup : Option GenericSuppressHandler) (input : PlistInput) (asf : String) :
    parse_and_write hf gl il smap skip ps sup input asf ≠ Except.ok PWResult.failure ∧
    (∀ (out : String) (st : Stats) (sup' : Option GenericSuppressHandler),
      write_bugs gl il smap skip ps (parse_plist hf input none true).2
          (parse_plist hf input none true).1 asf sup = .ok (out, st, sup') →
      parse_and_write hf gl il smap skip ps sup input asf = .ok (.stats out st sup')) ∧
    parse_and_write hf gl il smap skip ps sup PlistInput.malformed asf =
      .ok (.stats ("Found no defects while analyzing" ++
        (if asf ≠ "" then " " ++ basename asf else "") ++ "\n") ⟨[], [], []⟩ sup) := by
  refine ⟨?_, ?_, ?_⟩
  · simp only [parse_and_write]
    cases hw : write_bugs gl il smap skip ps (parse_plist hf input none true).2
        (parse_plist hf input none true).1 asf sup with
    | error e => simp [hw]
    | ok val =>
      obtain ⟨o, st2, s2⟩ := val
      simp [hw]
  · intro out st sup' hw
    simp only [parse_and_write, hw]
  · rfl

/-- Witness for C7 (amended): a successfully parsed and rendered
bundle yields the statistics result, never the failure indicator. -/
theorem C7_witness :
    parse_and_write hfConst glZero ilNone [] none false none (PlistInput.ok pW2) "" ≠
      Except.ok PWResult.failure ∧
    parse_and_write hfConst glZero ilNone [] none false none (PlistInput.ok pW2) "" =
      .ok (.stats "[UNSPECIFIED] a.c:1:1: m [chk]\n\n\nFound 1 defect(s) while analyzing\n\n"
        ⟨[("UNSPECIFIED", 1)], [("a.c", 1)], [("report_count", 1)]⟩ none) :=
  ⟨(C7_parse_failure_indicator hfConst glZero ilNone [] none false none
      (PlistInput.ok pW2) "").1,
   (C7_parse_failure_indicator hfConst glZero ilNone [] none false none
      (PlistInput.ok pW2) "").2.1
     "[UNSPECIFIED] a.c:1:1: m [chk]\n\n\nFound 1 defect(s) while analyzing\n\n"
     ⟨[("UNSPECIFIED", 1)], [("a.c", 1)], [("report_count", 1)]⟩ none rfl⟩

/-- Counterexample for C7: on a bundle that parses successfully into
one report whose path has no event step, `parse_and_write` neither
returns the statistics mapping nor the indicator — it fails with the
propagated rendering error. -/
theorem C7_counterexample :
    parse_plist hfConst (PlistInput.ok pCtrl) none true = (["a.c"], [repNoEvent]) ∧
    parse_and_write hfConst glZero ilNone [] none false none (PlistInput.ok pCtrl) "" =
      .error () :=
  ⟨rfl, rfl⟩

/-- C8 (amended): with step-printing enabled the formatter enumerates
every event-kind path step of a rendered finding with a 1-based index
rendered by `index_format` right-justified to the width
`floor(log10(report count)) + 1` — the report count of the pass, not
the step count. -/
theorem C8_step_enumeration_width (gl : String → Nat → String)
    (il : String → Nat → String → String → Option (String × String × String))
    (smap : List (String × String)) (skip : Option (String → Bool))
    (files : List String) (r : Report) (sup : Option GenericSuppressHandler) :
    (∀ (t fp sv : String) (sup' : Option GenericSuppressHandler) (n : Nat),
      processReport gl il smap skip true (log10floor n + 1) files r sup =
        .ok (some (t, fp, sv), sup') →
      ∃ pre, t = pre ++ ("  Report hash: " ++ r.main_hash ++ "\n" ++ "  Steps:\n" ++
        stepsRendering (log10floor n + 1) files 1
          (r.bug_path.filter (fun i => i.kind == some "event")) ++ "\n")) ∧
    (∀ (ps : Bool) (reports : List Report) (asf : String)
       (sup₀ : Option GenericSuppressHandler),
      write_bugs gl il smap skip ps reports files asf sup₀ =
        write_bugs_at gl il smap skip ps (log10floor reports.length + 1) reports files
          asf sup₀) := by
  constructor
  · intro t fp sv sup' n hp
    obtain ⟨ev, l, lastStep, rloc, source_file, msg, stepsPart, _, _, _, _, _, _, _,
      hsteps, hsv, ht, _⟩ :=
      processReport_rendered_shape gl il smap skip true (log10floor n + 1) files r sup
        t fp sv sup' hp
    rcases hsteps with ⟨_, s, hrs, hsp⟩ | ⟨hfalse, _⟩
    · refine ⟨format_bug_event (some r.main_check_name) (some sv) rloc msg source_file ++
        "\n" ++ format_location gl rloc source_file ++ "\n", ?_⟩
      rw [ht, hsp, renderStepsAux_ok (log10floor n + 1) files _ 0 s hrs]
      simp [String.append_assoc]
    · exact absurd hfalse (by simp)
  · intro ps reports asf sup₀
    rfl

set_option maxRecDepth 8192 in
/-- Witness for C8 (amended): a rendered ten-event report in a
one-report pass carries the steps section rendered with width
`floor(log10(1)) + 1 = 1`. -/
theorem C8_witness :
    ∃ pre,
      "[UNSPECIFIED] a.c:1:1: m [c]\n\n  Report hash: h\n  Steps:\n" ++
        "    1, a.c:1:1: m\n" ++ "    2, a.c:1:1: m\n" ++ "    3, a.c:1:1: m\n" ++
        "    4, a.c:1:1: m\n" ++ "    5, a.c:1:1: m\n" ++ "    6, a.c:1:1: m\n" ++
        "    7, a.c:1:1: m\n" ++ "    8, a.c:1:1: m\n" ++ "    9, a.c:1:1: m\n" ++
        "    10, a.c:1:1: m\n" ++ "\n" =
      pre ++ ("  Report hash: " ++ rep10.main_hash ++ "\n" ++ "  Steps:\n" ++
        stepsRendering (log10floor 1 + 1) ["a.c"] 1
          (rep10.bug_path.filter (fun i => i.kind == some "event")) ++ "\n") :=
  (C8_step_enumeration_width glZero ilNone [] none ["a.c"] rep10 none).1
    ("[UNSPECIFIED] a.c:1:1: m [c]\n\n  Report hash: h\n  Steps:\n" ++
      "    1, a.c:1:1: m\n" ++ "    2, a.c:1:1: m\n" ++ "    3, a.c:1:1: m\n" ++
      "    4, a.c:1:1: m\n" ++ "    5, a.c:1:1: m\n" ++ "    6, a.c:1:1: m\n" ++
      "    7, a.c:1:1: m\n" ++ "    8, a.c:1:1: m\n" ++ "    9, a.c:1:1: m\n" ++
      "    10, a.c:1:1: m\n" ++ "\n")
    "a.c" "UNSPECIFIED" none 1 rfl

set_option maxRecDepth 8192 in
/-- Counterexample for C8: in a one-report pass over a ten-step
finding the first step line is rendered `"    1, "` (width 1, from the
report count) while a width taken from the total step count (10, so
width 2) would render `"     1, "`; the full outputs differ. -/
theorem C8_counterexample :
    write_bugs glZero ilNone [] none true [rep10] ["a.c"] "" none =
      .ok ("[UNSPECIFIED] a.c:1:1: m [c]\n\n  Report hash: h\n  Steps:\n" ++
        "    1, a.c:1:1: m\n" ++ "    2, a.c:1:1: m\n" ++ "    3, a.c:1:1: m\n" ++
        "    4, a.c:1:1: m\n" ++ "    5, a.c:1:1: m\n" ++ "    6, a.c:1:1: m\n" ++
        "    7, a.c:1:1: m\n" ++ "    8, a.c:1:1: m\n" ++ "    9, a.c:1:1: m\n" ++
        "    10, a.c:1:1: m\n" ++ "\nFound 1 defect(s) while analyzing\n\n",
        ⟨[("UNSPECIFIED", 1)], [("a.c", 1)], [("report_count", 1)]⟩, none) ∧
    index_format (log10floor 1 + 1) 1 = "    1, " ∧
    claimed_index_format 10 1 = "     1, " ∧
    ("[UNSPECIFIED] a.c:1:1: m [c]\n\n  Report hash: h\n  Steps:\n" ++
        "    1, a.c:1:1: m\n" ++ "    2, a.c:1:1: m\n" ++ "    3, a.c:1:1: m\n" ++
        "    4, a.c:1:1: m\n" ++ "    5, a.c:1:1: m\n" ++ "    6, a.c:1:1: m\n" ++
        "    7, a.c:1:1: m\n" ++ "    8, a.c:1:1: m\n" ++ "    9, a.c:1:1: m\n" ++
        "    10, a.c:1:1: m\n" ++ "\nFound 1 defect(s) while analyzing\n\n" : String) ≠
      ("[UNSPECIFIED] a.c:1:1: m [c]\n\n  Report hash: h\n  Steps:\n" ++
        "     1, a.c:1:1: m\n" ++ "     2, a.c:1:1: m\n" ++ "     3, a.c:1:1: m\n" ++
        "     4, a.c:1:1: m\n" ++ "     5, a.c:1:1: m\n" ++ "     6, a.c:1:1: m\n" ++
        "     7, a.c:1:1: m\n" ++ "     8, a.c:1:1: m\n" ++ "     9, a.c:1:1: m\n" ++
        "    10, a.c:1:1: m\n" ++ "\nFound 1 defect(s) while analyzing\n\n") :=
  ⟨rfl, rfl, rfl, by decide⟩

end CodeChecker
